import Mathlib

/-!
Verification model of the LAN-OS peer network engine
(repository Puskar-Roy/Lan-OS, file src/unnamed/part_000; the older
variants in src/app.js share the Protocol and TicTacToe code verbatim).

Conventions of the shallow embedding:
* JS strings are Lean `String`s; raw byte buffers are `List Nat`
  (each entry one byte).
* The mutable `NetworkNode` object becomes an explicit `NodeState`
  record; every handler is a pure function
  `NodeState → NodeState × List Effect`, where `Effect` records the
  observable actions (EventEmitter emissions, websocket sends, pings,
  terminations, child-process spawns) in program order.
* JS `Map`s become association lists with JS `Map` semantics
  (`mapGet` / `mapSet` / `mapDelete` below).
* The one place where the engine can raise an uncaught exception
  (`/accept` calling the nonexistent `GameEngine.start`) is modelled
  with `Except Unit`.
-/

/-- A tic-tac-toe mark, the JS strings "X" and "O". -/
inductive Mark where
  | X
  | O
deriving DecidableEq, Repr

/-- Result of `GameEngine.checkWin`: a winning mark, or the string "DRAW". -/
inductive GameResult where
  | winner (m : Mark)
  | draw
deriving DecidableEq, Repr

/--
The `GameEngine` class of src/unnamed/part_000 (lines 71-108).
`board` is the 9-cell array (JS `null` is `none`), `turn` the mark whose
turn the engine believes it is, `myRole` the local player's mark
(JS `null` before any game starts).
-/
structure GameEngine where
  active : Bool
  board : Fin 9 → Option Mark
  turn : Mark
  myRole : Option Mark

/--
The method names the `GameEngine` class body defines.  Notably there is
no `start` method, although `NetworkNode._accept` and the `game-start`
handler both call `this.game.start(...)`.
-/
def gameEngineMethods : List String := ["constructor", "reset", "move", "checkWin"]

/-- State produced by `GameEngine.reset()`, also run by the constructor. -/
def GameEngine.init : GameEngine :=
  { active := false, board := fun _ => none, turn := .X, myRole := none }

/--
Method `GameEngine.move(idx, role)` (lines 81-87): returns the JS boolean result
together with the updated engine.  `role` is `Option Mark` because the
caller `NetworkNode.move` passes `this.game.myRole`, which can be `null`.
The guards are exactly the source's:
`if (!this.active || this.board[idx]) return false;`
`if (role === this.myRole && this.turn !== this.myRole) return false;`
then `board[idx] = role; turn = role === "X" ? "O" : "X"; return true`.
-/
def GameEngine.move (g : GameEngine) (idx : Fin 9) (role : Option Mark) :
    Bool × GameEngine :=
  if g.active = false ∨ (g.board idx).isSome then (false, g)
  else if role = g.myRole ∧ g.myRole ≠ some g.turn then (false, g)
  else
    (true,
      { g with
        board := Function.update g.board idx role,
        turn := if role = some Mark.X then Mark.O else Mark.X })

/-- The 8 win lines of `GameEngine.checkWin` (lines 89-98), in source order. -/
def winLines : List (Fin 9 × Fin 9 × Fin 9) :=
  [(0, 1, 2), (3, 4, 5), (6, 7, 8), (0, 3, 6), (1, 4, 7), (2, 5, 8), (0, 4, 8), (2, 4, 6)]

/--
The loop body of `checkWin`: a line yields its mark when its first cell is
truthy and all three cells hold the same value.
-/
def GameEngine.lineWin (g : GameEngine) (c : Fin 9 × Fin 9 × Fin 9) : Option Mark :=
  match g.board c.1 with
  | none => none
  | some m =>
      if g.board c.2.1 = some m ∧ g.board c.2.2 = some m then some m else none

/--
Method `GameEngine.checkWin()` (lines 88-107): the first winning line's mark,
else "DRAW" when the board has no `null`, else `null`.
-/
def GameEngine.checkWin (g : GameEngine) : Option GameResult :=
  match winLines.findSome? g.lineWin with
  | some m => some (.winner m)
  | none => if ∀ i, (g.board i).isSome then some .draw else none

/-- Build a board function from a 9-element list (missing entries empty). -/
def boardOfList (l : List (Option Mark)) : Fin 9 → Option Mark :=
  fun i => l.getD i.val none

/-- Predicate: one of the 8 standard lines holds three identical non-empty marks `m`. -/
def hasLine (g : GameEngine) (m : Mark) : Prop :=
  ∃ c ∈ winLines, g.board c.1 = some m ∧ g.board c.2.1 = some m ∧ g.board c.2.2 = some m

instance (g : GameEngine) (m : Mark) : Decidable (hasLine g m) := by
  unfold hasLine; infer_instance

/-! ## The framing codec (`Protocol`, lines 47-68)

`Protocol.createBinary(fileId, chunk)` produces
`[4-byte big-endian header length][UTF-8 of JSON.stringify({fileId})][chunk]`.
We model buffers as lists of byte values and the `fileId` string by its
UTF-8 byte sequence; `JSON.stringify`'s string escaping is reproduced at
the byte level (all characters it rewrites are ASCII, so escaping
commutes with UTF-8 encoding).
-/

/-- The 4 big-endian bytes `Buffer.writeUInt32BE` stores for `n`. -/
def be4 (n : Nat) : List Nat :=
  [n / 2 ^ 24 % 256, n / 2 ^ 16 % 256, n / 2 ^ 8 % 256, n % 256]

/-- Value `Buffer.readUInt32BE` reads back from four bytes. -/
def readUInt32BE (b0 b1 b2 b3 : Nat) : Nat :=
  ((b0 * 256 + b1) * 256 + b2) * 256 + b3

/-- Lowercase hex digit, as `JSON.stringify` emits in `\u00xx` escapes. -/
def hexDigit (d : Nat) : Nat := if d < 10 then 0x30 + d else 0x57 + d

/--
Escaping of one string byte as `JSON.stringify` performs it: `"` and `\` get a
backslash, the five control characters with short escapes use them, the
remaining control bytes become `\u00xx`, and every other byte is copied.
-/
def escapeByte (b : Nat) : List Nat :=
  if b = 0x22 then [0x5c, 0x22]
  else if b = 0x5c then [0x5c, 0x5c]
  else if b = 8 then [0x5c, 0x62]
  else if b = 9 then [0x5c, 0x74]
  else if b = 10 then [0x5c, 0x6e]
  else if b = 12 then [0x5c, 0x66]
  else if b = 13 then [0x5c, 0x72]
  else if b < 0x20 then [0x5c, 0x75, 0x30, 0x30, hexDigit (b / 16), hexDigit (b % 16)]
  else [b]

/-- Escape every byte of a string. -/
def escapeBytes (s : List Nat) : List Nat := (s.map escapeByte).flatten

/-- The UTF-8 bytes of the literal text before the fileId value in
`JSON.stringify({fileId})`. -/
def headerLead : List Nat :=
  [0x7b, 0x22, 0x66, 0x69, 0x6c, 0x65, 0x49, 0x64, 0x22, 0x3a, 0x22]

/-- The UTF-8 bytes of `JSON.stringify({fileId})` for the given fileId bytes. -/
def jsonFileIdHeader (fid : List Nat) : List Nat :=
  headerLead ++ (escapeBytes fid ++ [0x22, 0x7d])

/-- Method `Protocol.createBinary(fileId, chunk)` (lines 48-54). -/
def Protocol.createBinary (fid chunk : List Nat) : List Nat :=
  be4 (jsonFileIdHeader fid).length ++ (jsonFileIdHeader fid ++ chunk)

/-- Value of a hex digit byte (`JSON.parse` accepts both cases). -/
def hexVal (b : Nat) : Option Nat :=
  if 0x30 ≤ b ∧ b ≤ 0x39 then some (b - 0x30)
  else if 0x61 ≤ b ∧ b ≤ 0x66 then some (b - 0x57)
  else if 0x41 ≤ b ∧ b ≤ 0x46 then some (b - 0x37)
  else none

/-- The single-character JSON escapes. -/
def unescChar (e : Nat) : Option Nat :=
  if e = 0x22 then some 0x22
  else if e = 0x5c then some 0x5c
  else if e = 0x2f then some 0x2f
  else if e = 0x62 then some 8
  else if e = 0x74 then some 9
  else if e = 0x6e then some 10
  else if e = 0x66 then some 12
  else if e = 0x72 then some 13
  else none

/-- UTF-8 bytes of a code point (used for `\uXXXX` escapes on parsing). -/
def utf8Bytes (n : Nat) : List Nat :=
  if n < 0x80 then [n]
  else if n < 0x800 then [0xc0 + n / 64, 0x80 + n % 64]
  else if n < 0x10000 then [0xe0 + n / 4096, 0x80 + n / 64 % 64, 0x80 + n % 64]
  else [0xf0 + n / 262144, 0x80 + n / 4096 % 64, 0x80 + n / 64 % 64, 0x80 + n % 64]

/--
Consume a JSON string body up to its closing quote, undoing the escapes;
returns the decoded bytes and the input remaining after the quote.
-/
def unescapeLoop : List Nat → Option (List Nat × List Nat)
  | [] => none
  | b :: rest =>
    if b = 0x22 then some ([], rest)
    else if b = 0x5c then
      match rest with
      | [] => none
      | e :: rest2 =>
        if e = 0x75 then
          match rest2 with
          | h1 :: h2 :: h3 :: h4 :: rest3 =>
            match hexVal h1, hexVal h2, hexVal h3, hexVal h4 with
            | some d1, some d2, some d3, some d4 =>
              match unescapeLoop rest3 with
              | some (s, r) =>
                  some (utf8Bytes (((d1 * 16 + d2) * 16 + d3) * 16 + d4) ++ s, r)
              | none => none
            | _, _, _, _ => none
          | _ => none
        else
          match unescChar e with
          | some c =>
            match unescapeLoop rest2 with
            | some (s, r) => some (c :: s, r)
            | none => none
          | none => none
    else
      match unescapeLoop rest with
      | some (s, r) => some (b :: s, r)
      | none => none
termination_by structural l => l

/-- Strip an expected leading byte sequence. -/
def dropLead : List Nat → List Nat → Option (List Nat)
  | [], rest => some rest
  | _ :: _, [] => none
  | p :: ps, b :: bs => if b = p then dropLead ps bs else none

/--
Model of `JSON.parse` on the header, specialised to the object shape
`JSON.stringify({fileId})` produces; anything else is a parse failure
(the source discards the frame on any JSON exception).
-/
def parseFileIdHeader (bytes : List Nat) : Option (List Nat) :=
  match dropLead headerLead bytes with
  | none => none
  | some rest =>
    match unescapeLoop rest with
    | some (fid, [0x7d]) => some fid
    | _ => none

/-- Method `Protocol.parseBinary(buf)` (lines 55-67): `some (fileId bytes, data)`. -/
def Protocol.parseBinary (buf : List Nat) : Option (List Nat × List Nat) :=
  match buf with
  | b0 :: b1 :: b2 :: b3 :: rest =>
    let hLen := readUInt32BE b0 b1 b2 b3
    if rest.length < hLen then none
    else
      match parseFileIdHeader (rest.take hLen) with
      | some fid => some (fid, rest.drop hLen)
      | none => none
  | _ => none

/-! ## Association-list maps with JS `Map` semantics -/

/-- JS `Map.get` / `Map.has`: first binding of the key. -/
def mapGet {κ α : Type} [DecidableEq κ] : List (κ × α) → κ → Option α
  | [], _ => none
  | p :: ps, k => if p.1 = k then some p.2 else mapGet ps k

/-- JS `Map.set`: replace in place when present, append otherwise. -/
def mapSet {κ α : Type} [DecidableEq κ] : List (κ × α) → κ → α → List (κ × α)
  | [], k, v => [(k, v)]
  | p :: ps, k, v => if p.1 = k then (k, v) :: ps else p :: mapSet ps k v

/-- JS `Map.delete`. -/
def mapDelete {κ α : Type} [DecidableEq κ] : List (κ × α) → κ → List (κ × α)
  | [], _ => []
  | p :: ps, k => if p.1 = k then mapDelete ps k else p :: mapDelete ps k

/-! ## The `NetworkNode` engine state -/

/-- The local identity record `{id, username}`. -/
structure Identity where
  id : String
  username : String
deriving DecidableEq, Repr

/-- Payload of a `pair` control message (the stored session `meta`). -/
structure PairPayload where
  fromId : String
  name : String
  ack : Bool
deriving DecidableEq, Repr

/--
One entry of the `conns` map plus the attributes the code bolts onto the
underlying websocket.  `connAlive` is the `isAlive` field stored in the
map entry `{ ws, meta, isAlive }` — the flag the heartbeat interval reads
and clears.  `wsAlive` is the separate `ws.isAlive` attribute that
`_handleConn` initialises and the `pong` listener sets.  `wsOpen` models
`ws.readyState === OPEN`, which gates `_send`.
-/
structure Conn where
  wsAlive : Bool
  connAlive : Bool
  wsOpen : Bool
  meta : PairPayload
deriving DecidableEq, Repr

/-- An in-progress file reception: destination path and the bytes written
to its stream so far. -/
structure Transfer where
  path : String
  written : List Nat
deriving DecidableEq, Repr

/-- The single pending `shell-req` (`this.pendingShell`). -/
structure PendingShell where
  fromId : String
  cmd : String
deriving DecidableEq, Repr

/-- A decoded `{type, payload}` control message. -/
inductive CtrlMsg where
  | pair (fromId name : String) (ack : Bool)
  | msg (fromId name text : String) (isPm : Bool)
  | nudge (fromName : String)
  | shellReq (fromId fromName cmd : String)
  | shellOut (output : String)
  | fileOffer (fileId filename : String) (size : Nat) (fromId : String)
  | fileEnd (fileId : String)
  | gameInvite (fromId name : String)
  | gameStart (role : Option Mark)
  | gameMove (idx : Fin 9) (role : Option Mark)
deriving DecidableEq, Repr

/--
The engine's `log` emissions, one constructor per `this.emit("log", ...)`
site, carrying the interpolated data (colour/markup tags elided).
-/
inductive LogMsg where
  | securityWarning (fromName cmd : String)
  | allowHint
  | remoteOutput (output : String)
  | receivingFile (filename : String)
  | fileSaved (path : String)
  | gameInviteNotice (name : String)
  | gameStarted (role : Option Mark)
  | userGone
  | helpLine (text : String)
  | nudgeOnlyDM
  | nudged (name : String)
  | shellOnlyDM
  | shellRequesting (cmd target : String)
  | noPendingShell
  | executing (cmd : String)
  | fileNotFound
  | selectDM
  | fileSent (filename : String)
  | inviteSent
  | gameAccepted
  | gameOver (r : GameResult)
deriving DecidableEq, Repr

/-- Observable actions of a handler, in program order. -/
inductive Effect where
  | emitLog (m : LogMsg)
  | emitChat (fromId : Option String) (name text : String) (isPm : Bool)
  | emitNudge (fromName : String)
  | emitConnsUpdate
  | emitGameUpdate
  | send (toPeer : String) (m : CtrlMsg)
  | sendBinary (toPeer : String) (frame : List Nat)
  | execCmd (cmd : String) (replyTo : Option String)
  | ping (peer : String)
  | terminate (peer : String)
deriving DecidableEq, Repr

/-- The mutable state of a `NetworkNode` (the fields the engine handlers
touch; the discovery-only `peers` map is omitted). -/
structure NodeState where
  identity : Identity
  conns : List (String × Conn)
  transfers : List (List Nat × Transfer)
  game : GameEngine
  activeTarget : String
  pendingShell : Option PendingShell

/-- UTF-8 bytes of a string, connecting `String`-keyed control payloads to
the byte-level binary frames. -/
def strBytes (s : String) : List Nat := (s.data.map (fun c => utf8Bytes c.toNat)).flatten

/-- Helper `this._send(ws, type, payload)`: sends only when the socket is open. -/
def sendVia (c : Conn) (pid : String) (m : CtrlMsg) : List Effect :=
  if c.wsOpen then [Effect.send pid m] else []

/-- Method `NetworkNode._checkWin()` (lines 489-495): any truthy `checkWin` result
(including "DRAW") logs game over and clears `active`. -/
def NetworkNode.checkWinNode (st : NodeState) : NodeState × List Effect :=
  match st.game.checkWin with
  | some r => ({ st with game := { st.game with active := false } }, [Effect.emitLog (.gameOver r)])
  | none => (st, [])

/--
The control-message dispatch of `NetworkNode._handleConn` (lines 206-302).
`now` is `Date.now()` at receipt (used for the receive path name).

The `game-start` case is the source's `this.game.start(payload.role || "X")`:
`GameEngine` defines no `start` method, so the call raises a `TypeError`
before any state change, and the surrounding `try { ... } catch (e) {}`
swallows it — the net behaviour is "no change, no effects".
-/
def NetworkNode.handleCtrl (now : Nat) (st : NodeState) (m : CtrlMsg) :
    NodeState × List Effect :=
  match m with
  | .pair fromId name ack =>
    let c : Conn := { wsAlive := true, connAlive := true, wsOpen := true,
                      meta := { fromId := fromId, name := name, ack := ack } }
    ({ st with conns := mapSet st.conns fromId c },
      [Effect.emitConnsUpdate] ++
        (if ack = false then
          [Effect.send fromId (.pair st.identity.id st.identity.username true)]
        else []))
  | .msg fromId name text isPm => (st, [Effect.emitChat (some fromId) name text isPm])
  | .nudge fromName => (st, [Effect.emitNudge fromName])
  | .shellReq fromId fromName cmd =>
    ({ st with pendingShell := some { fromId := fromId, cmd := cmd } },
      [Effect.emitLog (.securityWarning fromName cmd), Effect.emitLog .allowHint])
  | .shellOut output => (st, [Effect.emitLog (.remoteOutput output)])
  | .fileOffer fileId filename _ _ =>
    let fpath := "received_files/" ++ toString now ++ "_" ++ filename
    ({ st with transfers := mapSet st.transfers (strBytes fileId) { path := fpath, written := [] } },
      [Effect.emitLog (.receivingFile filename)])
  | .fileEnd fileId =>
    match mapGet st.transfers (strBytes fileId) with
    | some t =>
      ({ st with transfers := mapDelete st.transfers (strBytes fileId) },
        [Effect.emitLog (.fileSaved t.path)])
    | none => (st, [])
  | .gameInvite fromId name =>
    ({ st with activeTarget := fromId }, [Effect.emitLog (.gameInviteNotice name)])
  | .gameStart _ => (st, [])
  | .gameMove idx role =>
    let g2 := (st.game.move idx role).2
    let r := NetworkNode.checkWinNode { st with game := g2 }
    (r.1, [Effect.emitGameUpdate] ++ r.2)

/--
The binary branch of the message listener (lines 198-204): a parsed frame
whose fileId has an open transfer appends its data to that stream;
anything else does nothing.
-/
def NetworkNode.handleBinary (st : NodeState) (frame : List Nat) :
    NodeState × List Effect :=
  match Protocol.parseBinary frame with
  | some (fid, data) =>
    match mapGet st.transfers fid with
    | some t =>
      ({ st with transfers := mapSet st.transfers fid { t with written := t.written ++ data } }, [])
    | none => (st, [])
  | none => (st, [])

/-- The `close` listener (lines 306-311): delete the paired peer (when the
connection ever paired) and notify; nothing else. -/
def NetworkNode.handleClose (st : NodeState) (peerId : Option String) :
    NodeState × List Effect :=
  match peerId with
  | some pid => ({ st with conns := mapDelete st.conns pid }, [Effect.emitConnsUpdate])
  | none => (st, [])

/--
One heartbeat interval tick (lines 135-141): for each conns entry, a
false `isAlive` field terminates the socket (removal happens later, at
the `close` event); otherwise the field is cleared and a ping is sent.
-/
def NetworkNode.heartbeatTick (st : NodeState) : NodeState × List Effect :=
  ({ st with conns := st.conns.map (fun p =>
      if p.2.connAlive = false then p else (p.1, { p.2 with connAlive := false })) },
    st.conns.map (fun p =>
      if p.2.connAlive = false then Effect.terminate p.1 else Effect.ping p.1))

/-- The per-socket `pong` listener (lines 193-195): `ws.isAlive = true`. -/
def Conn.pongUpdate (c : Conn) : Conn := { c with wsAlive := true }

/-- A pong arriving on the socket of peer `pid`. -/
def NetworkNode.onPong (st : NodeState) (pid : String) : NodeState :=
  { st with conns := st.conns.map (fun p => if p.1 = pid then (p.1, p.2.pongUpdate) else p) }

/-! ## Local command surface (`processInput` and helpers, lines 320-495) -/

/-- Prefix test of `String.startsWith`, spelled out on the character lists so concrete
instances evaluate in the kernel. -/
def strStarts (s p : String) : Bool := List.isPrefixOf p.data s.data

/-- A snapshot of the filesystem as `_sendFile` observes it: existence,
and the chunk sequence a 16 KiB-high-water-mark read stream yields. -/
structure FsModel where
  fileIsThere : String → Bool
  chunks : String → List (List Nat)

/-- POSIX `path.basename`. -/
def basename (p : String) : String := (p.splitOn "/").getLastD p

/-- The seven `/help` lines (markup tags elided). -/
def helpTexts : List String :=
  ["LAN-OS COMMANDS:",
   "  /send <path>   : Send a file",
   "  /nudge         : Shake opponent's screen",
   "  /play          : Invite to Tic-Tac-Toe",
   "  /accept        : Accept Game Invite",
   "  /exec <cmd>    : Request remote shell",
   "  /allow         : Approve shell request"]

/-- Method `NetworkNode._showHelp()`. -/
def NetworkNode.showHelp (st : NodeState) : NodeState × List Effect :=
  (st, helpTexts.map (fun l => Effect.emitLog (.helpLine l)))

/-- Method `NetworkNode._invite()` (lines 459-468): silently does nothing unless
the active target is a connected peer. -/
def NetworkNode.invite (st : NodeState) : NodeState × List Effect :=
  match mapGet st.conns st.activeTarget with
  | some t =>
    (st, sendVia t st.activeTarget (.gameInvite st.identity.id st.identity.username) ++
      [Effect.emitLog .inviteSent])
  | none => (st, [])

/--
Method `NetworkNode._accept()` (lines 470-478): with a connected target it runs
`this.game.start("O")` — but `GameEngine` has no `start` method, so a
`TypeError` escapes `processInput` (there is no catch on this path),
modelled as `.error ()`; nothing after the call runs.
-/
def NetworkNode.acceptCmd (st : NodeState) : Except Unit (NodeState × List Effect) :=
  match mapGet st.conns st.activeTarget with
  | some _ => .error ()
  | none => .ok (st, [])

/-- Method `NetworkNode._sendNudge()` (lines 374-383). -/
def NetworkNode.sendNudge (st : NodeState) : NodeState × List Effect :=
  match mapGet st.conns st.activeTarget with
  | none => (st, [Effect.emitLog .nudgeOnlyDM])
  | some t =>
    if st.activeTarget = "general" then (st, [Effect.emitLog .nudgeOnlyDM])
    else
      (st, sendVia t st.activeTarget (.nudge st.identity.username) ++
        [Effect.emitLog (.nudged t.meta.name)])

/-- Method `NetworkNode._requestShell(cmd)` (lines 385-401). -/
def NetworkNode.requestShell (st : NodeState) (cmd : String) : NodeState × List Effect :=
  match mapGet st.conns st.activeTarget with
  | none => (st, [Effect.emitLog .shellOnlyDM])
  | some t =>
    if st.activeTarget = "general" then (st, [Effect.emitLog .shellOnlyDM])
    else
      (st, sendVia t st.activeTarget (.shellReq st.identity.id st.identity.username cmd) ++
        [Effect.emitLog (.shellRequesting cmd t.meta.name)])

/--
Method `NetworkNode._approveShell()` (lines 403-420).  With no pending request it
only logs.  Otherwise it logs, spawns `exec` (whose completion callback
will send `shell-out` to the requester's connection captured at approval
time, if any) and clears `pendingShell`; the `execCmd` effect carries the
captured reply target.
-/
def NetworkNode.approveShell (st : NodeState) : NodeState × List Effect :=
  match st.pendingShell with
  | none => (st, [Effect.emitLog .noPendingShell])
  | some p =>
    let replyTo := if (mapGet st.conns p.fromId).isSome then some p.fromId else none
    ({ st with pendingShell := none },
      [Effect.emitLog (.executing p.cmd), Effect.execCmd p.cmd replyTo])

/-- Method `NetworkNode._sendFile(filePath)` (lines 422-457). -/
def NetworkNode.sendFile (fsm : FsModel) (freshId : String) (st : NodeState)
    (fp : String) : NodeState × List Effect :=
  if fsm.fileIsThere fp = false then (st, [Effect.emitLog .fileNotFound])
  else
    match (if st.activeTarget = "general" then none else mapGet st.conns st.activeTarget) with
    | none => (st, [Effect.emitLog .selectDM])
    | some t =>
      let cs := fsm.chunks fp
      let fname := basename fp
      (st,
        sendVia t st.activeTarget
            (.fileOffer freshId fname (cs.foldl (fun a c => a + c.length) 0) st.identity.id) ++
          ((cs.map (fun ch =>
              if t.wsOpen then [Effect.sendBinary st.activeTarget (Protocol.createBinary (strBytes freshId) ch)]
              else [])).flatten ++
            (sendVia t st.activeTarget (.fileEnd freshId) ++
              [Effect.emitLog (.fileSent fname)])))

/-- The plain-chat fall-through of `processInput` (lines 331-358). -/
def NetworkNode.chatSend (st : NodeState) (text : String) : NodeState × List Effect :=
  if st.activeTarget = "general" then
    (st,
      (st.conns.map (fun p =>
        sendVia p.2 p.1 (.msg st.identity.id st.identity.username text false))).flatten ++
        [Effect.emitChat none "Me" text false])
  else
    match mapGet st.conns st.activeTarget with
    | some t =>
      (st, sendVia t st.activeTarget (.msg st.identity.id st.identity.username text true) ++
        [Effect.emitChat none ("-> " ++ t.meta.name) text true])
    | none =>
      ({ st with activeTarget := "general" }, [Effect.emitLog .userGone])

/-- Method `NetworkNode.processInput(text)` (lines 320-359), the command cascade.
`fsm` and `freshId` supply what `fs` and `uuidv4()` would return. -/
def NetworkNode.processInput (fsm : FsModel) (freshId : String) (st : NodeState)
    (text : String) : Except Unit (NodeState × List Effect) :=
  if text = "/help" then .ok (NetworkNode.showHelp st)
  else if strStarts text "/play" then .ok (NetworkNode.invite st)
  else if strStarts text "/accept" then NetworkNode.acceptCmd st
  else if strStarts text "/send " then
    .ok (NetworkNode.sendFile fsm freshId st ((text.splitOn "/send ").getD 1 "").trim)
  else if text = "/nudge" then .ok (NetworkNode.sendNudge st)
  else if strStarts text "/exec " then .ok (NetworkNode.requestShell st (text.drop 6))
  else if text = "/allow" then .ok (NetworkNode.approveShell st)
  else .ok (NetworkNode.chatSend st text)

/-- The command-prefix test matching `processInput`'s cascade; text failing
it goes down the chat path. -/
def isCmdText (text : String) : Prop :=
  text = "/help" ∨ strStarts text "/play" = true ∨ strStarts text "/accept" = true ∨
    strStarts text "/send " = true ∨ text = "/nudge" ∨ strStarts text "/exec " = true ∨
    text = "/allow"

instance (text : String) : Decidable (isCmdText text) := by
  unfold isCmdText; infer_instance

/-- Method `NetworkNode.move(idx)` (lines 480-487), the local move entry point. -/
def NetworkNode.moveCmd (st : NodeState) (idx : Fin 9) : NodeState × List Effect :=
  let r := st.game.move idx st.game.myRole
  if r.1 then
    let st1 := { st with game := r.2 }
    let sendEff :=
      match mapGet st1.conns st1.activeTarget with
      | some t => sendVia t st1.activeTarget (.gameMove idx st1.game.myRole)
      | none => []
    let r2 := NetworkNode.checkWinNode st1
    (r2.1, [Effect.emitGameUpdate] ++ (sendEff ++ r2.2))
  else (st, [])

/-! ## General lemmas about the embedded operations -/

/-- Deleting a key from a JS-style map makes lookups of that key fail. -/
theorem mapGet_mapDelete {κ α : Type} [DecidableEq κ] (m : List (κ × α)) (k : κ) :
    mapGet (mapDelete m k) k = none := by
  induction m with
  | nil => rfl
  | cons p ps ih =>
    by_cases h : p.1 = k
    · simp [mapDelete, h, ih]
    · simp [mapDelete, mapGet, h, ih]

/-- Closed form of `GameEngine.move`: the guards collapse to one condition. -/
theorem GameEngine.move_spec (g : GameEngine) (idx : Fin 9) (role : Option Mark) :
    g.move idx role =
      if g.active = true ∧ g.board idx = none ∧ ¬(role = g.myRole ∧ g.myRole ≠ some g.turn)
      then (true, { g with board := Function.update g.board idx role, turn := if role = some Mark.X then Mark.O else Mark.X })
      else (false, g) := by
  unfold GameEngine.move
  rcases hb : g.board idx with _ | m <;> cases ha : g.active <;>
    simp [hb, ha] <;> split_ifs <;> simp_all

/-- Text that matches no command prefix goes down the chat fall-through. -/
theorem processInput_chat (fsm : FsModel) (freshId : String) (st : NodeState) (text : String)
    (h : ¬ isCmdText text) :
    NetworkNode.processInput fsm freshId st text = .ok (NetworkNode.chatSend st text) := by
  unfold isCmdText at h
  push_neg at h
  obtain ⟨h1, h2, h3, h4, h5, h6, h7⟩ := h
  unfold NetworkNode.processInput
  simp [h1, h2, h3, h4, h5, h6, h7]

/-- A filesystem snapshot with no files, for concrete instantiations. -/
def fsm0 : FsModel := { fileIsThere := fun _ => false, chunks := fun _ => [] }

/-! ## C1 — heartbeat liveness -/

/-- A freshly paired session entry. -/
def c1Conn : Conn :=
  { wsAlive := true, connAlive := true, wsOpen := true,
    meta := { fromId := "p1", name := "Peer", ack := false } }

/-- A node with the single session `c1Conn`. -/
def c1St : NodeState :=
  { identity := { id := "me", username := "Me" }, conns := [("p1", c1Conn)],
    transfers := [], game := .init, activeTarget := "general", pendingShell := none }

/--
**C1** (code bug): the claim says a pong reply restores the Session's
liveness flag, so a peer that keeps answering pings is never force-closed.
In the code the pong listener sets `ws.isAlive` while the heartbeat
interval reads and clears the `isAlive` field of the conns-map entry,
which nothing ever sets back to `true`: pong leaves the checked flag
unchanged (first conjunct), so after a first tick (which pings) the second
tick terminates the transport even though a pong arrived in between
(remaining conjuncts).
-/
theorem c1_pong_never_restores_liveness :
    (∀ c : Conn, c.pongUpdate.connAlive = c.connAlive) ∧
    (NetworkNode.heartbeatTick c1St).2 = [Effect.ping "p1"] ∧
    (NetworkNode.heartbeatTick
        (NetworkNode.onPong (NetworkNode.heartbeatTick c1St).1 "p1")).2 =
      [Effect.terminate "p1"] :=
  ⟨fun _ => rfl, rfl, rfl⟩

/-! ## C2 — ActiveTarget reset on close -/

/-- A connected session for peer `pA`. -/
def c2Conn : Conn :=
  { wsAlive := true, connAlive := true, wsOpen := true,
    meta := { fromId := "pA", name := "Alice", ack := false } }

/-- A node whose ActiveTarget is the connected peer `pA`. -/
def c2St : NodeState :=
  { identity := { id := "me", username := "Me" }, conns := [("pA", c2Conn)],
    transfers := [], game := .init, activeTarget := "pA", pendingShell := none }

/--
**C2** (counterexample): closing the transport of the current ActiveTarget
removes the session and emits only a conns-changed notification; contrary
to the claim, ActiveTarget is NOT reset to "general" as part of teardown.
-/
theorem c2_claim_false :
    c2St.activeTarget = "pA" ∧
    (NetworkNode.handleClose c2St (some "pA")).1.activeTarget = "pA" ∧
    "pA" ≠ "general" ∧
    (NetworkNode.handleClose c2St (some "pA")).2 = [Effect.emitConnsUpdate] :=
  ⟨rfl, rfl, by decide, rfl⟩

/--
**C2** (amended): on transport close the Session is only removed from the
map (one conns-changed notification) and ActiveTarget is untouched; the
reset to "general" happens lazily, on the next outbound chat to a direct
target with no Session, with exactly one log notification and no message
sent.
-/
theorem c2_lazy_target_reset :
    ∀ (st : NodeState) (pid : String) (fsm : FsModel) (freshId text : String),
      (NetworkNode.handleClose st (some pid) =
        ({ st with conns := mapDelete st.conns pid }, [Effect.emitConnsUpdate])) ∧
      ((NetworkNode.handleClose st (some pid)).1.activeTarget = st.activeTarget) ∧
      (¬ isCmdText text → st.activeTarget ≠ "general" →
        mapGet st.conns st.activeTarget = none →
        NetworkNode.processInput fsm freshId st text =
          .ok ({ st with activeTarget := "general" }, [Effect.emitLog LogMsg.userGone])) := by
  intro st pid fsm freshId text
  refine ⟨rfl, rfl, fun hc h1 h2 => ?_⟩
  rw [processInput_chat fsm freshId st text hc]
  unfold NetworkNode.chatSend
  simp [h1, h2]

/-- A node whose ActiveTarget `pA` has no session (it closed). -/
def c2GoneSt : NodeState :=
  { identity := { id := "me", username := "Me" }, conns := [], transfers := [],
    game := .init, activeTarget := "pA", pendingShell := none }

/-- Witness for `c2_lazy_target_reset` at a concrete state and input. -/
theorem c2_lazy_target_reset_witness :
    (¬ isCmdText "hi") ∧ c2GoneSt.activeTarget ≠ "general" ∧
    mapGet c2GoneSt.conns c2GoneSt.activeTarget = none ∧
    NetworkNode.processInput fsm0 "f1" c2GoneSt "hi" =
      .ok ({ c2GoneSt with activeTarget := "general" }, [Effect.emitLog LogMsg.userGone]) :=
  ⟨by decide, by decide, rfl,
   (c2_lazy_target_reset c2GoneSt "pA" fsm0 "f1" "hi").2.2 (by decide) (by decide) rfl⟩

/-! ## C3 — move validity -/

/-- Active game where it is O's turn and the local player is O. -/
def c3Game : GameEngine :=
  { active := true, board := fun _ => none, turn := .O, myRole := some .O }

/--
**C3** (counterexample): with the local role O and the turn belonging to O,
a (remote) move by X is applied even though it is not X's turn — the
claimed "applied iff Active, cell empty and it is the mover's turn" fails,
because the source's turn check `role === this.myRole && this.turn !==
this.myRole` only constrains the local role.
-/
theorem c3_claim_false :
    ¬ (((c3Game.move 0 (some Mark.X)).1 = true) ↔
        (c3Game.active = true ∧ c3Game.board 0 = none ∧ c3Game.turn = Mark.X)) := by
  decide

/--
**C3** (amended): a move is applied iff the game is Active, the cell is
empty, and — only when the moving role equals the locally stored role —
it is that role's turn (so remote moves by the other role bypass the turn
check); an applied move sets the turn to the opposite of the applied
role; a rejected move leaves the engine unchanged; a rejected local move
leaves the node state unchanged and produces no effects (no network
traffic); and a remote game-move goes through the same `GameEngine.move`
followed by the same win check.
-/
theorem c3_move_validity_amended :
    ∀ (g : GameEngine) (idx : Fin 9) (role : Option Mark) (st : NodeState) (now : Nat),
      ((g.move idx role).1 = true ↔
        (g.active = true ∧ g.board idx = none ∧ ¬(role = g.myRole ∧ g.myRole ≠ some g.turn))) ∧
      ((g.move idx role).1 = true →
        (g.move idx role).2.turn = (if role = some Mark.X then Mark.O else Mark.X)) ∧
      ((g.move idx role).1 = false → (g.move idx role).2 = g) ∧
      ((st.game.move idx st.game.myRole).1 = false → NetworkNode.moveCmd st idx = (st, [])) ∧
      ((NetworkNode.handleCtrl now st (.gameMove idx role)).1.game =
        (NetworkNode.checkWinNode { st with game := (st.game.move idx role).2 }).1.game) := by
  intro g idx role st now
  by_cases hcond : (g.active = true ∧ g.board idx = none ∧ ¬(role = g.myRole ∧ g.myRole ≠ some g.turn))
  · refine ⟨?_, ?_, ?_, ?_, rfl⟩
    · rw [GameEngine.move_spec, if_pos hcond]; exact iff_of_true rfl hcond
    · intro _; rw [GameEngine.move_spec, if_pos hcond]
    · intro hf; rw [GameEngine.move_spec, if_pos hcond] at hf; exact Bool.noConfusion hf
    · intro hf
      unfold NetworkNode.moveCmd
      simp [hf]
  · refine ⟨?_, ?_, ?_, ?_, rfl⟩
    · rw [GameEngine.move_spec, if_neg hcond]; exact iff_of_false (by simp) hcond
    · intro ht; rw [GameEngine.move_spec, if_neg hcond] at ht; exact Bool.noConfusion ht
    · intro _; rw [GameEngine.move_spec, if_neg hcond]
    · intro hf
      unfold NetworkNode.moveCmd
      simp [hf]

/-- A node with a fresh (inactive) game. -/
def c3St : NodeState :=
  { identity := { id := "me", username := "Me" }, conns := [], transfers := [],
    game := .init, activeTarget := "general", pendingShell := none }

/-- Witness for `c3_move_validity_amended`: a move on the inactive initial
engine is rejected and changes nothing, locally producing no effects. -/
theorem c3_move_validity_amended_witness :
    ((GameEngine.init.move 0 (some Mark.X)).1 = false) ∧
    ((GameEngine.init.move 0 (some Mark.X)).2 = GameEngine.init) ∧
    ((c3St.game.move 0 c3St.game.myRole).1 = false) ∧
    (NetworkNode.moveCmd c3St 0 = (c3St, [])) :=
  ⟨by decide,
   (c3_move_validity_amended GameEngine.init 0 (some Mark.X) c3St 0).2.2.1 (by decide),
   by decide,
   (c3_move_validity_amended c3St.game 0 (some Mark.X) c3St 0).2.2.2.1 (by decide)⟩

/-! ## C4 — accepting a game -/

/--
**C4** (code bug): `GameEngine` defines no `start` method, yet both accept
paths call `this.game.start(...)`.  On receipt of `game-start` the
`TypeError` is swallowed by the message handler's empty catch, so the
handler changes nothing: the board is not reset, no role is assigned and
the game does not become `Active` (second conjunct); the local `/accept`
with a connected target raises out of `processInput` (third conjunct,
modelled as `.error ()`).
-/
theorem c4_game_start_method_missing :
    "start" ∉ gameEngineMethods ∧
    (∀ (now : Nat) (st : NodeState) (role : Option Mark),
      NetworkNode.handleCtrl now st (.gameStart role) = (st, []) ∧
      (NetworkNode.handleCtrl now st (.gameStart role)).1.game = st.game) ∧
    (∀ st : NodeState, NetworkNode.acceptCmd st =
      match mapGet st.conns st.activeTarget with
      | some _ => .error ()
      | none => .ok (st, [])) :=
  ⟨by decide, fun _ _ _ => ⟨rfl, rfl⟩, fun _ => rfl⟩

/-! ## C5 — binary frame round trip -/

/-- Reading back the four big-endian bytes of a value below `2^32`. -/
theorem read_be4 (n : Nat) (h : n < 2 ^ 32) :
    readUInt32BE (n / 2 ^ 24 % 256) (n / 2 ^ 16 % 256) (n / 2 ^ 8 % 256) (n % 256) = n := by
  unfold readUInt32BE
  have h24 : (2 : Nat) ^ 24 = 16777216 := by norm_num
  have h16 : (2 : Nat) ^ 16 = 65536 := by norm_num
  have h8 : (2 : Nat) ^ 8 = 256 := by norm_num
  have h32 : (2 : Nat) ^ 32 = 4294967296 := by norm_num
  rw [h24, h16, h8]
  rw [h32] at h
  omega

/-- Stripping an exact leading sequence succeeds. -/
theorem dropLead_append (p : List Nat) : ∀ rest, dropLead p (p ++ rest) = some rest := by
  induction p with
  | nil => intro rest; rfl
  | cons a ps ih => intro rest; simp [dropLead, ih]

/-- Hex digits round-trip. -/
theorem hexVal_hexDigit (d : Nat) (h : d < 16) : hexVal (hexDigit d) = some d := by
  interval_cases d <;> decide

/-- Unescaping undoes the escaping of a single byte, whatever follows. -/
theorem unescape_escapeByte (b : Nat) (tail : List Nat) :
    unescapeLoop (escapeByte b ++ tail) =
      match unescapeLoop tail with
      | some (s, r) => some (b :: s, r)
      | none => none := by
  by_cases h22 : b = 0x22
  · subst h22; rw [show escapeByte 0x22 ++ tail = 0x5c :: 0x22 :: tail from rfl]
    rw [unescapeLoop.eq_def]; simp [unescChar]
  · by_cases h5c : b = 0x5c
    · subst h5c; rw [show escapeByte 0x5c ++ tail = 0x5c :: 0x5c :: tail from rfl]
      rw [unescapeLoop.eq_def]; simp [unescChar]
    · by_cases h8 : b = 8
      · subst h8; rw [show escapeByte 8 ++ tail = 0x5c :: 0x62 :: tail from rfl]
        rw [unescapeLoop.eq_def]; simp [unescChar]
      · by_cases h9 : b = 9
        · subst h9; rw [show escapeByte 9 ++ tail = 0x5c :: 0x74 :: tail from rfl]
          rw [unescapeLoop.eq_def]; simp [unescChar]
        · by_cases h10 : b = 10
          · subst h10; rw [show escapeByte 10 ++ tail = 0x5c :: 0x6e :: tail from rfl]
            rw [unescapeLoop.eq_def]; simp [unescChar]
          · by_cases h12 : b = 12
            · subst h12; rw [show escapeByte 12 ++ tail = 0x5c :: 0x66 :: tail from rfl]
              rw [unescapeLoop.eq_def]; simp [unescChar]
            · by_cases h13 : b = 13
              · subst h13; rw [show escapeByte 13 ++ tail = 0x5c :: 0x72 :: tail from rfl]
                rw [unescapeLoop.eq_def]; simp [unescChar]
              · by_cases hc : b < 0x20
                · have hesc : escapeByte b ++ tail =
                      0x5c :: 0x75 :: 0x30 :: 0x30 :: hexDigit (b / 16) :: hexDigit (b % 16) :: tail := by
                    unfold escapeByte
                    rw [if_neg h22, if_neg h5c, if_neg h8, if_neg h9, if_neg h10,
                      if_neg h12, if_neg h13, if_pos hc]
                    rfl
                  rw [hesc, unescapeLoop.eq_def]
                  have hv48 : hexVal 48 = some 0 := by decide
                  have hd1 : hexVal (hexDigit (b / 16)) = some (b / 16) :=
                    hexVal_hexDigit _ (by omega)
                  have hd2 : hexVal (hexDigit (b % 16)) = some (b % 16) :=
                    hexVal_hexDigit _ (by omega)
                  have hdm : b / 16 * 16 + b % 16 = b := by omega
                  have hub : utf8Bytes b = [b] := by
                    unfold utf8Bytes
                    rw [if_pos (by omega : b < 0x80)]
                  simp [hv48, hd1, hd2, hdm, hub]
                · have hesc : escapeByte b ++ tail = b :: tail := by
                    unfold escapeByte
                    rw [if_neg h22, if_neg h5c, if_neg h8, if_neg h9, if_neg h10,
                      if_neg h12, if_neg h13, if_neg hc]
                    rfl
                  rw [hesc, unescapeLoop.eq_def]
                  simp [h22, h5c]

/-- Unescaping undoes the escaping of a whole fileId value. -/
theorem unescape_escapeBytes (fid : List Nat) (r : List Nat) :
    unescapeLoop (escapeBytes fid ++ (0x22 :: r)) = some (fid, r) := by
  induction fid with
  | nil =>
    rw [show escapeBytes [] ++ (0x22 :: r) = 0x22 :: r from rfl, unescapeLoop.eq_def]
    simp
  | cons b bs ih =>
    have hsplit : escapeBytes (b :: bs) = escapeByte b ++ escapeBytes bs := by
      simp [escapeBytes]
    rw [hsplit, List.append_assoc, unescape_escapeByte, ih]

/-- Parsing the produced header yields back the fileId bytes. -/
theorem parse_header (fid : List Nat) : parseFileIdHeader (jsonFileIdHeader fid) = some fid := by
  have h1 : unescapeLoop (escapeBytes fid ++ (0x22 :: [0x7d])) = some (fid, [0x7d]) :=
    unescape_escapeBytes fid [0x7d]
  unfold parseFileIdHeader jsonFileIdHeader
  rw [dropLead_append]
  simp [h1]

/--
**C5**: decoding the frame produced by `Protocol.createBinary` recovers
exactly the fileId (its UTF-8 bytes) and exactly the chunk bytes, for
every fileId and every chunk (in particular sizes 0, 1 and 16384); the
only proviso is the source's own limit that the header length fit the
4-byte field.
-/
theorem c5_roundtrip :
    ∀ (fid chunk : List Nat),
      (jsonFileIdHeader fid).length < 2 ^ 32 →
      Protocol.parseBinary (Protocol.createBinary fid chunk) = some (fid, chunk) := by
  intro fid chunk hlen
  unfold Protocol.createBinary Protocol.parseBinary be4
  simp only [List.cons_append, List.nil_append]
  rw [read_be4 _ hlen]
  have hlen2 : ¬ ((jsonFileIdHeader fid ++ chunk).length < (jsonFileIdHeader fid).length) := by
    rw [List.length_append]; omega
  rw [if_neg hlen2]
  rw [List.take_left, List.drop_left]
  rw [parse_header]

/-- Witness for `c5_roundtrip` at fileId "abc" (bytes 61 62 63). -/
theorem c5_roundtrip_witness :
    (jsonFileIdHeader [0x61, 0x62, 0x63]).length < 2 ^ 32 ∧
    Protocol.parseBinary (Protocol.createBinary [0x61, 0x62, 0x63] [0, 255]) =
      some ([0x61, 0x62, 0x63], [0, 255]) :=
  ⟨by decide, c5_roundtrip [0x61, 0x62, 0x63] [0, 255] (by decide)⟩

/-! ## C6 — win detection -/

/-- Emptiness of `findSome?` over the win lines means no line wins. -/
theorem findSome?_eq_none_iff {α β : Type} (f : α → Option β) :
    ∀ l : List α, l.findSome? f = none ↔ ∀ a ∈ l, f a = none := by
  intro l
  induction l with
  | nil => simp [List.findSome?]
  | cons a l ih =>
    cases h : f a with
    | some b => simp [List.findSome?, h]
    | none => simp [List.findSome?, h, ih]

/-- A successful `findSome?` exhibits a member it succeeded on. -/
theorem findSome?_eq_some_ex {α β : Type} (f : α → Option β) :
    ∀ (l : List α) (b : β), l.findSome? f = some b → ∃ a ∈ l, f a = some b := by
  intro l
  induction l with
  | nil => intro b h; exact absurd h (by simp [List.findSome?])
  | cons a l ih =>
    intro b h
    cases hfa : f a with
    | some b' =>
      rw [List.findSome?, hfa] at h
      exact ⟨a, by simp, by rw [hfa]; exact h⟩
    | none =>
      rw [List.findSome?, hfa] at h
      obtain ⟨x, hx, hfx⟩ := ih b h
      exact ⟨x, by simp [hx], hfx⟩

/-- The loop body succeeds with `m` exactly when all three cells hold `m`. -/
theorem lineWin_eq_some (g : GameEngine) (c : Fin 9 × Fin 9 × Fin 9) (m : Mark) :
    g.lineWin c = some m ↔
      (g.board c.1 = some m ∧ g.board c.2.1 = some m ∧ g.board c.2.2 = some m) := by
  cases hb : g.board c.1 with
  | none => simp [GameEngine.lineWin, hb]
  | some m' =>
    simp only [GameEngine.lineWin, hb]
    split_ifs with hc
    · constructor
      · intro h
        cases Option.some.inj h
        exact ⟨rfl, hc.1, hc.2⟩
      · rintro ⟨h1, -, -⟩
        exact h1
    · constructor
      · intro h
        exact absurd h (by simp)
      · rintro ⟨h1, h2, h3⟩
        cases Option.some.inj h1
        exact absurd ⟨h2, h3⟩ hc

/-- Restating `hasLine` through the loop body. -/
theorem hasLine_iff_lineWin (g : GameEngine) (m : Mark) :
    hasLine g m ↔ ∃ c ∈ winLines, g.lineWin c = some m := by
  unfold hasLine
  constructor
  · rintro ⟨c, hc, h3⟩
    exact ⟨c, hc, (lineWin_eq_some g c m).2 h3⟩
  · rintro ⟨c, hc, h3⟩
    exact ⟨c, hc, (lineWin_eq_some g c m).1 h3⟩

/-- The line scan finds nothing exactly when no mark has a winning line. -/
theorem checkWin_no_line_iff (g : GameEngine) :
    winLines.findSome? g.lineWin = none ↔ (∀ m, ¬ hasLine g m) := by
  rw [findSome?_eq_none_iff]
  constructor
  · intro h m hm
    obtain ⟨c, hc, h3⟩ := (hasLine_iff_lineWin g m).1 hm
    rw [h c hc] at h3
    exact Option.noConfusion h3
  · intro h c hc
    cases hlw : g.lineWin c with
    | none => rfl
    | some m =>
      exact absurd ((hasLine_iff_lineWin g m).2 ⟨c, hc, hlw⟩) (h m)

/-- The spec's example board: a full X top row, two O marks. -/
def gEx : GameEngine :=
  { active := true,
    board := boardOfList [some .X, some .X, some .X, none, some .O, some .O, none, none, none],
    turn := .X, myRole := none }

/-- A (unreachable in fair play) board where both marks have winning rows. -/
def gBothEx : GameEngine :=
  { active := true,
    board := boardOfList [some .X, some .X, some .X, some .O, some .O, some .O, none, none, none],
    turn := .X, myRole := none }

/--
**C6** (counterexample): on a board where both X and O have complete
lines, `checkWin` reports only the first line's mark, so "returns a mark
`m` exactly when one of the 8 lines holds three `m`" fails for `m = O`.
-/
theorem c6_claim_false :
    hasLine gBothEx Mark.O ∧ gBothEx.checkWin ≠ some (.winner Mark.O) := by
  constructor
  · decide
  · decide

/--
**C6** (amended): `checkWin` reports a draw exactly when no line wins and
all 9 cells are filled, reports nothing exactly when no line wins and a
cell is empty, and — provided not both marks simultaneously have winning
lines (then only one of them is reported) — reports mark `m` exactly when
one of the 8 lines holds three `m`; the spec's example board reports
winner X.
-/
theorem c6_checkwin_amended :
    (∀ g : GameEngine,
      ((g.checkWin = some GameResult.draw) ↔
        ((∀ m, ¬ hasLine g m) ∧ ∀ i, (g.board i).isSome = true)) ∧
      ((g.checkWin = none) ↔ ((∀ m, ¬ hasLine g m) ∧ ∃ i, g.board i = none)) ∧
      (¬ (hasLine g Mark.X ∧ hasLine g Mark.O) →
        ∀ m, (g.checkWin = some (GameResult.winner m) ↔ hasLine g m))) ∧
    gEx.checkWin = some (GameResult.winner Mark.X) := by
  constructor
  · intro g
    refine ⟨?_, ?_, ?_⟩
    · unfold GameEngine.checkWin
      cases hf : winLines.findSome? g.lineWin with
      | some m =>
        simp only [hf]
        constructor
        · intro h; exact absurd h (by simp)
        · rintro ⟨hnl, -⟩
          obtain ⟨c, hc, h3⟩ := findSome?_eq_some_ex _ _ _ hf
          exact absurd ((hasLine_iff_lineWin g m).2 ⟨c, hc, h3⟩) (hnl m)
      | none =>
        simp only [hf]
        have hnl := (checkWin_no_line_iff g).1 hf
        split_ifs with hfull
        · simp only [true_iff]
          refine ⟨hnl, fun i => ?_⟩
          exact hfull i
        · constructor
          · intro h; exact absurd h (by simp)
          · rintro ⟨-, hall⟩
            exact absurd (fun i => hall i) hfull
    · unfold GameEngine.checkWin
      cases hf : winLines.findSome? g.lineWin with
      | some m =>
        simp only [hf]
        constructor
        · intro h; exact absurd h (by simp)
        · rintro ⟨hnl, -⟩
          obtain ⟨c, hc, h3⟩ := findSome?_eq_some_ex _ _ _ hf
          exact absurd ((hasLine_iff_lineWin g m).2 ⟨c, hc, h3⟩) (hnl m)
      | none =>
        simp only [hf]
        have hnl := (checkWin_no_line_iff g).1 hf
        split_ifs with hfull
        · constructor
          · intro h; exact absurd h (by simp)
          · rintro ⟨-, ⟨i, hi⟩⟩
            have := hfull i
            rw [hi] at this
            exact Bool.noConfusion this
        · constructor
          · intro _
            refine ⟨hnl, ?_⟩
            by_contra hne
            push_neg at hne
            exact hfull (fun i => by
              cases hb : g.board i with
              | none => exact absurd hb (hne i)
              | some m => rfl)
          · intro _; rfl
    · intro hboth m
      unfold GameEngine.checkWin
      cases hf : winLines.findSome? g.lineWin with
      | none =>
        have hnl := (checkWin_no_line_iff g).1 hf
        simp only [hf]
        constructor
        · intro h
          split_ifs at h <;> exact absurd h (by simp)
        · intro h; exact absurd h (hnl m)
      | some m' =>
        simp only [hf]
        obtain ⟨c, hc, h3⟩ := findSome?_eq_some_ex _ _ _ hf
        have hm' : hasLine g m' := (hasLine_iff_lineWin g m').2 ⟨c, hc, h3⟩
        constructor
        · intro h
          have : m' = m := by
            have := Option.some.inj h
            cases this
            rfl
          cases this
          exact hm'
        · intro hm
          by_cases he : m' = m
          · cases he
            rfl
          · exfalso
            apply hboth
            cases m <;> cases m' <;> simp_all
  · decide

/-- Witness for `c6_checkwin_amended` on the spec's example board. -/
theorem c6_checkwin_amended_witness :
    (¬ (hasLine gEx Mark.X ∧ hasLine gEx Mark.O)) ∧
    (gEx.checkWin = some (GameResult.winner Mark.X) ↔ hasLine gEx Mark.X) :=
  ⟨by decide, (c6_checkwin_amended.1 gEx).2.2 (by decide) Mark.X⟩

/-! ## C7 — unknown fileId frames -/

/--
**C7**: a parsed binary frame whose fileId has no open TransferState is
dropped with no state change and no effects (nothing written, no teardown);
and handling `file-end` always leaves the fileId without a TransferState,
so later chunks for it hit exactly this dropped path.
-/
theorem c7_unknown_fileid_dropped :
    ∀ (st : NodeState) (frame fid data : List Nat),
      Protocol.parseBinary frame = some (fid, data) →
      mapGet st.transfers fid = none →
      NetworkNode.handleBinary st frame = (st, []) ∧
      (∀ (now : Nat) (s : String),
        mapGet (NetworkNode.handleCtrl now st (.fileEnd s)).1.transfers (strBytes s) = none) := by
  intro st frame fid data hp hn
  constructor
  · unfold NetworkNode.handleBinary
    rw [hp]
    simp [hn]
  · intro now s
    unfold NetworkNode.handleCtrl
    cases h : mapGet st.transfers (strBytes s) with
    | none => simp [h]
    | some t => simp [h, mapGet_mapDelete]

/-- A node with no open transfers. -/
def c7St : NodeState :=
  { identity := { id := "me", username := "Me" }, conns := [], transfers := [],
    game := .init, activeTarget := "general", pendingShell := none }

/-- Witness for `c7_unknown_fileid_dropped` at a concrete frame and state. -/
theorem c7_unknown_fileid_dropped_witness :
    Protocol.parseBinary (Protocol.createBinary [97] [1, 2]) = some ([97], [1, 2]) ∧
    mapGet c7St.transfers [97] = none ∧
    NetworkNode.handleBinary c7St (Protocol.createBinary [97] [1, 2]) = (c7St, []) :=
  ⟨by decide, rfl,
   (c7_unknown_fileid_dropped c7St (Protocol.createBinary [97] [1, 2]) [97] [1, 2]
     (by decide) rfl).1⟩

/-! ## C8 — approve with nothing pending -/

/--
**C8**: `_approveShell` with no pending request only emits the
"No pending shell requests." notice: the state is returned unchanged and
the effect list contains no exec and no send.
-/
theorem c8_approve_no_pending_noop :
    ∀ st : NodeState, st.pendingShell = none →
      NetworkNode.approveShell st = (st, [Effect.emitLog LogMsg.noPendingShell]) := by
  intro st h
  unfold NetworkNode.approveShell
  rw [h]

/-- A node with no pending shell request. -/
def c8St : NodeState :=
  { identity := { id := "me", username := "Me" }, conns := [], transfers := [],
    game := .init, activeTarget := "general", pendingShell := none }

/-- Witness for `c8_approve_no_pending_noop` at a concrete state. -/
theorem c8_approve_no_pending_noop_witness :
    c8St.pendingShell = none ∧
    NetworkNode.approveShell c8St = (c8St, [Effect.emitLog LogMsg.noPendingShell]) :=
  ⟨rfl, c8_approve_no_pending_noop c8St rfl⟩

/-! ## C9 — replay of a successful move -/

/--
**C9**: once `move (idx, role)` succeeds, the cell holds `role`, the cell
can never change again under any further move, and replaying the same
`(idx, role)` is rejected with the engine unchanged.
-/
theorem c9_replay_rejected :
    ∀ (g : GameEngine) (idx : Fin 9) (role : Mark),
      (g.move idx (some role)).1 = true →
      ((g.move idx (some role)).2.board idx = some role) ∧
      (∀ (h : GameEngine) (j : Fin 9) (r : Option Mark),
          h.board idx = some role → ((h.move j r).2).board idx = some role) ∧
      (g.move idx (some role)).2.move idx (some role) = (false, (g.move idx (some role)).2) := by
  intro g idx role hs
  have hocc : ∀ (h : GameEngine) (j : Fin 9) (r : Option Mark),
      h.board idx = some role → ((h.move j r).2).board idx = some role := by
    intro h j r hb
    by_cases hc : (h.active = true ∧ h.board j = none ∧ ¬(r = h.myRole ∧ h.myRole ≠ some h.turn))
    · rw [GameEngine.move_spec, if_pos hc]
      rcases hc with ⟨-, hempty, -⟩
      have hne : idx ≠ j := by
        intro he
        rw [← he, hb] at hempty
        exact Option.noConfusion hempty
      show Function.update h.board j r idx = some role
      rw [Function.update_noteq hne]
      exact hb
    · rw [GameEngine.move_spec, if_neg hc]
      exact hb
  have hcond : g.active = true ∧ g.board idx = none ∧
      ¬(some role = g.myRole ∧ g.myRole ≠ some g.turn) := by
    by_contra hc
    rw [GameEngine.move_spec, if_neg hc] at hs
    exact Bool.noConfusion hs
  have hb1 : (g.move idx (some role)).2.board idx = some role := by
    rw [GameEngine.move_spec, if_pos hcond]
    show Function.update g.board idx (some role) idx = some role
    rw [Function.update_same]
  refine ⟨hb1, hocc, ?_⟩
  rw [GameEngine.move_spec (g.move idx (some role)).2]
  rw [if_neg]
  rintro ⟨-, hempty, -⟩
  rw [hb1] at hempty
  exact Option.noConfusion hempty

/-- Active game where X is to move and the local player is X. -/
def c9Game : GameEngine :=
  { active := true, board := fun _ => none, turn := .X, myRole := some .X }

/-- Witness for `c9_replay_rejected`: a concrete successful move whose
replay is rejected without changing the engine. -/
theorem c9_replay_rejected_witness :
    ((c9Game.move 0 (some Mark.X)).1 = true) ∧
    ((c9Game.move 0 (some Mark.X)).2.move 0 (some Mark.X) =
      (false, (c9Game.move 0 (some Mark.X)).2)) :=
  ⟨by decide, (c9_replay_rejected c9Game 0 Mark.X (by decide)).2.2⟩

/-! ## C10 — game-invite hijacks the active target -/

/--
**C10**: receiving `game-invite` sets the process-wide ActiveTarget to the
inviter's peerId (leaving everything else unchanged, with only the invite
log line), and from then on plain chat input is sent as a direct message
to the inviter — the spec does not mention this state change.
-/
theorem c10_invite_hijacks_target :
    ∀ (now : Nat) (st : NodeState) (fromId name text : String) (c : Conn)
      (fsm : FsModel) (freshId : String),
      (NetworkNode.handleCtrl now st (.gameInvite fromId name) =
        ({ st with activeTarget := fromId }, [Effect.emitLog (.gameInviteNotice name)])) ∧
      (¬ isCmdText text → fromId ≠ "general" →
        mapGet st.conns fromId = some c → c.wsOpen = true →
        NetworkNode.processInput fsm freshId { st with activeTarget := fromId } text =
          .ok ({ st with activeTarget := fromId },
            [Effect.send fromId (.msg st.identity.id st.identity.username text true),
             Effect.emitChat none ("-> " ++ c.meta.name) text true])) := by
  intro now st fromId name text c fsm freshId
  refine ⟨rfl, fun hc h1 h2 h3 => ?_⟩
  rw [processInput_chat fsm freshId _ text hc]
  unfold NetworkNode.chatSend
  simp [h1, h2, sendVia, h3]

/-- A connected session for the inviter `pB`. -/
def c10Conn : Conn :=
  { wsAlive := true, connAlive := true, wsOpen := true,
    meta := { fromId := "pB", name := "Bob", ack := false } }

/-- A node connected to `pB`, still targeting broadcast. -/
def c10St : NodeState :=
  { identity := { id := "me", username := "Me" }, conns := [("pB", c10Conn)],
    transfers := [], game := .init, activeTarget := "general", pendingShell := none }

/-- Witness for `c10_invite_hijacks_target` at a concrete state and text. -/
theorem c10_invite_hijacks_target_witness :
    (¬ isCmdText "yo") ∧ ("pB" : String) ≠ "general" ∧
    mapGet c10St.conns "pB" = some c10Conn ∧ c10Conn.wsOpen = true ∧
    NetworkNode.processInput fsm0 "f1" { c10St with activeTarget := "pB" } "yo" =
      .ok ({ c10St with activeTarget := "pB" },
        [Effect.send "pB" (.msg "me" "Me" "yo" true),
         Effect.emitChat none ("-> " ++ "Bob") "yo" true]) :=
  ⟨by decide, by decide, rfl, rfl,
   (c10_invite_hijacks_target 0 c10St "pB" "Bob" "yo" c10Conn fsm0 "f1").2
     (by decide) (by decide) rfl rfl⟩
